import Mathlib

/-!
Verification of the test-strip cropping pipeline (src/app/cropper.py).

The core function crop_test_strip takes a decoded pixel buffer and returns a
cropped buffer together with a metadata record.  The OpenCV preprocessing
chain (grayscale, blur, Canny, dilate, findContours) is an external
collaborator: it is a deterministic function from the input image to an
ordered sequence of contours, and is modelled here as an explicit parameter
of the pipeline.  Everything downstream of contour extraction (the
candidate filter and scorer, the selection loop, the crop-margin
arithmetic, the metadata record) is embedded directly from the source.

Pixel buffers are rows of pixel values; a contour is an ordered sequence of
integer points, with its axis-aligned bounding rectangle and its enclosed
polygon area (the shoelace formula, as cv2.contourArea computes) defined
over the points.  All real-valued arithmetic of the source (area ratios,
aspect ratios, scores) is carried out in the rationals.
-/

set_option maxRecDepth 20000

namespace StripCrop

/-- A pixel buffer: a list of rows of pixel values. -/
abbrev Image := List (List Nat)

/-- Number of rows of the buffer (image.shape[0]). -/
def Image.height (img : Image) : Nat := img.length

/-- Number of columns of the buffer (image.shape[1]), read off the first row. -/
def Image.width (img : Image) : Nat := (img.head?.getD []).length

/-- Total element count used by the input-validation guard (image.size). -/
def Image.size (img : Image) : Nat := img.height * img.width

/-- Rectangular well-formedness: every row has the buffer's width. -/
def Image.WF (img : Image) : Prop := ∀ r ∈ img, r.length = img.width

instance (img : Image) : Decidable img.WF := by
  unfold Image.WF; infer_instance

/-- A contour: an ordered sequence of 2D integer points (pixel coordinates). -/
abbrev Contour := List (Nat × Nat)

/-- cv2.boundingRect: the upright bounding box (x, y, w, h) of a contour,
with x, y the componentwise minima and w, h the extents plus one. -/
def boundingRect (c : Contour) : Nat × Nat × Nat × Nat :=
  match c with
  | [] => (0, 0, 0, 0)
  | p :: ps =>
    let xmin := ps.foldl (fun a q => min a q.1) p.1
    let ymin := ps.foldl (fun a q => min a q.2) p.2
    let xmax := ps.foldl (fun a q => max a q.1) p.1
    let ymax := ps.foldl (fun a q => max a q.2) p.2
    (xmin, ymin, xmax - xmin + 1, ymax - ymin + 1)

/-- The cyclic shoelace sum of a closed polyline. -/
def shoelace (c : Contour) : Int :=
  (c.zip (c.rotate 1)).foldl
    (fun a pq => a + ((pq.1.1 : Int) * pq.2.2 - (pq.2.1 : Int) * pq.1.2)) 0

/-- cv2.contourArea: absolute value of half the shoelace sum. -/
def contourArea (c : Contour) : ℚ := ((shoelace c).natAbs : ℚ) / 2

/-- area_ratio = contour_area / image_area (float division in the source,
exact rational division here). -/
def areaRatioOf (imageArea contourBoxArea : Nat) : ℚ :=
  (contourBoxArea : ℚ) / (imageArea : ℚ)

/-- aspect_ratio = h / w if w > 0 else 0. -/
def aspectRatioOf (w h : Nat) : ℚ :=
  if w > 0 then (h : ℚ) / (w : ℚ) else 0

/-- The two filters of the candidate loop, exactly as the source orders
them: first the area-ratio test against MIN_AREA_RATIO = 0.01 and
MAX_AREA_RATIO = 0.95, then the aspect-ratio test against
MIN_ASPECT_RATIO = 1.5 and MAX_ASPECT_RATIO = 15.0.  A contour passes when
neither continue branch fires. -/
def passesFilters (imageArea : Nat) (c : Contour) : Bool :=
  let r := boundingRect c
  let contour_area := r.2.2.1 * r.2.2.2
  let area_ratio := areaRatioOf imageArea contour_area
  if area_ratio < 1 / 100 ∨ area_ratio > 95 / 100 then false
  else
    let aspect_ratio := aspectRatioOf r.2.2.1 r.2.2.2
    if aspect_ratio < 3 / 2 ∨ aspect_ratio > 15 then false
    else true

/-- rectangularity = actual_area / contour_area if contour_area > 0 else 0,
where contour_area is the bounding-box area w * h. -/
def rectangularity (c : Contour) : ℚ :=
  let r := boundingRect c
  let contour_area := r.2.2.1 * r.2.2.2
  if contour_area > 0 then contourArea c / (contour_area : ℚ) else 0

/-- score = area_ratio * rectangularity. -/
def score (imageArea : Nat) (c : Contour) : ℚ :=
  let r := boundingRect c
  areaRatioOf imageArea (r.2.2.1 * r.2.2.2) * rectangularity c

/-- One iteration of the candidate loop: state is (best_score, best_contour)
and a contour replaces the state only when it passes both filters and its
score strictly exceeds best_score. -/
def step (imageArea : Nat) (st : ℚ × Option (Nat × Nat × Nat × Nat))
    (c : Contour) : ℚ × Option (Nat × Nat × Nat × Nat) :=
  if passesFilters imageArea c then
    if score imageArea c > st.1 then (score imageArea c, some (boundingRect c))
    else st
  else st

/-- The whole candidate loop: fold the step over the contour sequence from
(best_score = 0, best_contour = None) and return best_contour. -/
def selectBest (imageArea : Nat) (cs : List Contour) :
    Option (Nat × Nat × Nat × Nat) :=
  (cs.foldl (step imageArea) (0, none)).2

/-- The metadata dict of the source; bbox and cropped_size are present only
on success. -/
structure Metadata where
  success : Bool
  original_size : Nat × Nat
  detection_method : String
  message : String
  bbox : Option (Int × Int × Int × Int)
  cropped_size : Option (Int × Int)
  deriving DecidableEq, Repr

/-- Crop corners with margin: margin = int(side * 0.05) (which equals the
natural-number division side * 5 / 100), corners clamped to the image. -/
def cropRect (width height : Nat) (b : Nat × Nat × Nat × Nat) :
    Int × Int × Int × Int :=
  let margin_x : Nat := b.2.2.1 * 5 / 100
  let margin_y : Nat := b.2.2.2 * 5 / 100
  let x1 : Int := max 0 ((b.1 : Int) - margin_x)
  let y1 : Int := max 0 ((b.2.1 : Int) - margin_y)
  let x2 : Int := min (width : Int) ((b.1 : Int) + b.2.2.1 + margin_x)
  let y2 : Int := min (height : Int) ((b.2.1 : Int) + b.2.2.2 + margin_y)
  (x1, y1, x2, y2)

/-- image[y1:y2, x1:x2]: rows y1..y2-1, columns x1..x2-1 of each row. -/
def cropImage (img : Image) (x1 y1 x2 y2 : Int) : Image :=
  ((img.drop y1.toNat).take (y2 - y1).toNat).map
    (fun r => (r.drop x1.toNat).take (x2 - x1).toNat)

/-- crop_test_strip, parameterized by the contour extractor (the composed
grayscale / blur / Canny / dilate / findContours collaborator).  The input
is Option Image, none standing for a null buffer; a raised ValueError is
an error value. -/
def crop_test_strip (extract : Image → List Contour) (input : Option Image) :
    Except String (Image × Metadata) :=
  match input with
  | none => .error "Invalid image: image is None or empty"
  | some image =>
    if image.size = 0 then .error "Invalid image: image is None or empty"
    else
      let width := image.width
      let height := image.height
      let image_area := height * width
      let metadata0 : Metadata :=
        { success := false
          original_size := (width, height)
          detection_method := "contour_detection"
          message := ""
          bbox := none
          cropped_size := none }
      let contours := extract image
      if contours = [] then
        .ok (image, { metadata0 with message := "No contours found in image" })
      else
        match selectBest image_area contours with
        | none =>
          .ok (image,
            { metadata0 with message := "No suitable test strip contour found" })
        | some b =>
          let r := cropRect width height b
          let cropped := cropImage image r.1 r.2.1 r.2.2.1 r.2.2.2
          .ok (cropped,
            { metadata0 with
                success := true
                message := "Test strip successfully detected and cropped"
                bbox := some (r.1, r.2.1, r.2.2.1 - r.1, r.2.2.2 - r.2.1)
                cropped_size := some (r.2.2.1 - r.1, r.2.2.2 - r.2.1) })

/-- Failure record of the empty-contour exit. -/
def noContoursMeta (W H : Nat) : Metadata :=
  { success := false
    original_size := (W, H)
    detection_method := "contour_detection"
    message := "No contours found in image"
    bbox := none
    cropped_size := none }

/-- Failure record of the empty-candidate exit. -/
def noStripMeta (W H : Nat) : Metadata :=
  { success := false
    original_size := (W, H)
    detection_method := "contour_detection"
    message := "No suitable test strip contour found"
    bbox := none
    cropped_size := none }

/-- Success record built from the crop corners. -/
def successMeta (W H : Nat) (r : Int × Int × Int × Int) : Metadata :=
  { success := true
    original_size := (W, H)
    detection_method := "contour_detection"
    message := "Test strip successfully detected and cropped"
    bbox := some (r.1, r.2.1, r.2.2.1 - r.1, r.2.2.2 - r.2.1)
    cropped_size := some (r.2.2.1 - r.1, r.2.2.2 - r.2.1) }

/-! ### Concrete fixtures used to exercise the pipeline -/

/-- A 1×1 uniform image. -/
def img1 : Image := [[0]]

/-- A 38×38 uniform image. -/
def img38 : Image := List.replicate 38 (List.replicate 38 0)

/-- A 300-wide, 500-tall uniform image. -/
def img300x500 : Image := List.replicate 500 (List.replicate 300 0)

/-- A degenerate contour: a 1-pixel-wide vertical segment of height 15.
Its bounding box is (5, 5, 1, 15) and its enclosed polygon area is 0. -/
def cDeg : Contour := [(5, 5), (5, 19)]

/-- A rectangle contour with bounding box (100, 100, 50, 300). -/
def cRect : Contour := [(100, 100), (149, 100), (149, 399), (100, 399)]

/-- A congruent copy of cRect shifted right by 100: same bounding-box
width and height, hence the same score on the same image. -/
def cRect2 : Contour := [(200, 100), (249, 100), (249, 399), (200, 399)]

/-- A rectangle contour touching the left edge: bounding box
(0, 100, 50, 300). -/
def cLeft : Contour := [(0, 100), (49, 100), (49, 399), (0, 399)]

/-- An extractor that finds no contours. -/
def extractZero : Image → List Contour := fun _ => []

/-! ### Properties of the candidate loop -/

/-- A loop step never discards an already-stored best contour. -/
lemma step_snd_isSome (A : Nat) (st : ℚ × Option (Nat × Nat × Nat × Nat))
    (c : Contour) (h : st.2.isSome) : ((step A st c).2).isSome := by
  unfold step
  split_ifs <;> simp_all

/-- Once a best contour is stored, the rest of the loop keeps one stored. -/
lemma foldl_step_isSome (A : Nat) (cs : List Contour) :
    ∀ st : ℚ × Option (Nat × Nat × Nat × Nat), st.2.isSome →
      ((cs.foldl (step A) st).2).isSome := by
  induction cs with
  | nil => intro st h; simpa using h
  | cons c cs ih => intro st h; exact ih _ (step_snd_isSome A st c h)

/-- A contour that does not pass the filters with a score beating the
running best leaves the loop state unchanged. -/
lemma step_eq_self (A : Nat) (st : ℚ × Option (Nat × Nat × Nat × Nat))
    (c : Contour) (h : ¬(passesFilters A c = true ∧ st.1 < score A c)) :
    step A st c = st := by
  unfold step
  split_ifs with h1 h2
  · exact absurd ⟨h1, h2⟩ h
  · rfl
  · rfl

/-- A contour that passes the filters and beats the running best score
replaces the loop state. -/
lemma step_updates (A : Nat) (st : ℚ × Option (Nat × Nat × Nat × Nat))
    (c : Contour) (hp : passesFilters A c = true) (hs : st.1 < score A c) :
    step A st c = (score A c, some (boundingRect c)) := by
  unfold step
  rw [if_pos hp, if_pos hs]

/-- The running best score stays below any bound that dominates the scores
of all passing contours in the remaining list. -/
lemma foldl_step_fst_lt (A : Nat) (q : ℚ) (cs : List Contour) :
    ∀ st : ℚ × Option (Nat × Nat × Nat × Nat), st.1 < q →
      (∀ c ∈ cs, passesFilters A c = true → score A c < q) →
      (cs.foldl (step A) st).1 < q := by
  induction cs with
  | nil => intro st h _; simpa using h
  | cons c cs ih =>
    intro st hst hall
    rw [List.foldl_cons]
    refine ih _ ?_ fun c' hc' => hall c' (List.mem_cons_of_mem _ hc')
    unfold step
    split_ifs with h1 h2
    · exact hall c (List.mem_cons_self c cs) h1
    · exact hst
    · exact hst

/-- If no remaining contour beats the stored best score, the loop state is
left untouched. -/
lemma foldl_step_keep (A : Nat) (cs : List Contour) :
    ∀ st : ℚ × Option (Nat × Nat × Nat × Nat),
      (∀ c ∈ cs, passesFilters A c = true → score A c ≤ st.1) →
      cs.foldl (step A) st = st := by
  induction cs with
  | nil => intro st _; rfl
  | cons c cs ih =>
    intro st hall
    have h1 : step A st c = st := by
      refine step_eq_self A st c ?_
      rintro ⟨hp, hlt⟩
      exact absurd hlt (not_lt.mpr (hall c (List.mem_cons_self c cs) hp))
    rw [List.foldl_cons, h1]
    exact ih st fun c' hc' hp => hall c' (List.mem_cons_of_mem _ hc') hp

/-- The loop stores a best contour exactly when some contour passes both
filters with a strictly positive score. -/
lemma foldl_step_isSome_iff (A : Nat) (cs : List Contour) :
    ∀ st : ℚ × Option (Nat × Nat × Nat × Nat), (st.2 = none → st.1 = 0) →
      (((cs.foldl (step A) st).2).isSome ↔
        st.2.isSome ∨ ∃ c ∈ cs, passesFilters A c = true ∧ 0 < score A c) := by
  induction cs with
  | nil => intro st _; simp
  | cons c cs ih =>
    intro st hinv
    rw [List.foldl_cons]
    by_cases hp : passesFilters A c = true
    · by_cases hs : st.1 < score A c
      · have hstep : step A st c = (score A c, some (boundingRect c)) := by
          unfold step
          rw [if_pos hp, if_pos hs]
        rw [hstep]
        have hsome : ((cs.foldl (step A) (score A c, some (boundingRect c))).2).isSome :=
          foldl_step_isSome A cs _ (by simp)
        simp only [hsome, true_iff]
        rcases hst2 : st.2 with _ | r
        · refine Or.inr ⟨c, List.mem_cons_self c cs, hp, ?_⟩
          have h0 := hinv hst2
          rw [h0] at hs
          exact hs
        · exact Or.inl (by simp [hst2])
      · have hstep : step A st c = st := by
          refine step_eq_self A st c ?_
          rintro ⟨_, h⟩
          exact hs h
        rw [hstep, ih st hinv]
        constructor
        · rintro (h | ⟨c', hc', h1, h2⟩)
          · exact Or.inl h
          · exact Or.inr ⟨c', List.mem_cons_of_mem _ hc', h1, h2⟩
        · rintro (h | ⟨c', hc', h1, h2⟩)
          · exact Or.inl h
          · rcases List.mem_cons.mp hc' with rfl | hc'
            · rcases hst2 : st.2 with _ | r
              · exfalso
                have h0 := hinv hst2
                rw [h0] at hs
                exact hs h2
              · exact Or.inl (by simp [hst2])
            · exact Or.inr ⟨c', hc', h1, h2⟩
    · have hstep : step A st c = st := by
        refine step_eq_self A st c ?_
        rintro ⟨h, _⟩
        exact hp h
      rw [hstep, ih st hinv]
      constructor
      · rintro (h | ⟨c', hc', h1, h2⟩)
        · exact Or.inl h
        · exact Or.inr ⟨c', List.mem_cons_of_mem _ hc', h1, h2⟩
      · rintro (h | ⟨c', hc', h1, h2⟩)
        · exact Or.inl h
        · rcases List.mem_cons.mp hc' with rfl | hc'
          · exact absurd h1 hp
          · exact Or.inr ⟨c', hc', h1, h2⟩

/-- Candidate selection succeeds exactly when some contour passes both
filters with a strictly positive score. -/
lemma selectBest_isSome_iff (A : Nat) (cs : List Contour) :
    (selectBest A cs).isSome ↔
      ∃ c ∈ cs, passesFilters A c = true ∧ 0 < score A c := by
  unfold selectBest
  rw [foldl_step_isSome_iff A cs (0, none) (fun _ => rfl)]
  simp

/-- Any stored best box is the bounding rectangle of some contour of the
list that passes both filters with a strictly positive score. -/
lemma foldl_step_mem (A : Nat) (cs : List Contour) :
    ∀ (st : ℚ × Option (Nat × Nat × Nat × Nat)) (r : Nat × Nat × Nat × Nat),
      0 ≤ st.1 → (cs.foldl (step A) st).2 = some r →
      st.2 = some r ∨
        ∃ c ∈ cs, r = boundingRect c ∧ passesFilters A c = true ∧ 0 < score A c := by
  induction cs with
  | nil => intro st r _ h; exact Or.inl h
  | cons c cs ih =>
    intro st r h0 hfold
    rw [List.foldl_cons] at hfold
    by_cases hp : passesFilters A c = true
    · by_cases hs : st.1 < score A c
      · have hstep : step A st c = (score A c, some (boundingRect c)) := by
          unfold step
          rw [if_pos hp, if_pos hs]
        rw [hstep] at hfold
        rcases ih _ r (le_of_lt (lt_of_le_of_lt h0 hs)) hfold with h | h
        · refine Or.inr ⟨c, List.mem_cons_self c cs, ?_, hp, lt_of_le_of_lt h0 hs⟩
          simpa using h.symm
        · rcases h with ⟨c', hc', h1, h2, h3⟩
          exact Or.inr ⟨c', List.mem_cons_of_mem _ hc', h1, h2, h3⟩
      · have hstep : step A st c = st := by
          refine step_eq_self A st c ?_
          rintro ⟨_, h⟩
          exact hs h
        rw [hstep] at hfold
        rcases ih st r h0 hfold with h | ⟨c', hc', h1, h2, h3⟩
        · exact Or.inl h
        · exact Or.inr ⟨c', List.mem_cons_of_mem _ hc', h1, h2, h3⟩
    · have hstep : step A st c = st := by
        refine step_eq_self A st c ?_
        rintro ⟨h, _⟩
        exact hp h
      rw [hstep] at hfold
      rcases ih st r h0 hfold with h | ⟨c', hc', h1, h2, h3⟩
      · exact Or.inl h
      · exact Or.inr ⟨c', List.mem_cons_of_mem _ hc', h1, h2, h3⟩

/-- The selected box is the bounding rectangle of a member contour that
passes both filters with a strictly positive score. -/
lemma selectBest_mem (A : Nat) (cs : List Contour) (r : Nat × Nat × Nat × Nat)
    (h : selectBest A cs = some r) :
    ∃ c ∈ cs, r = boundingRect c ∧ passesFilters A c = true ∧ 0 < score A c := by
  unfold selectBest at h
  rcases foldl_step_mem A cs (0, none) r le_rfl h with h | h
  · simp at h
  · exact h

/-! ### Properties of the filters -/

/-- Passing the filters is equivalent to both ratios lying inside their
configured closed intervals. -/
lemma passes_iff (A : Nat) (c : Contour) :
    passesFilters A c = true ↔
      (1 / 100 ≤ areaRatioOf A ((boundingRect c).2.2.1 * (boundingRect c).2.2.2) ∧
       areaRatioOf A ((boundingRect c).2.2.1 * (boundingRect c).2.2.2) ≤ 95 / 100 ∧
       3 / 2 ≤ aspectRatioOf (boundingRect c).2.2.1 (boundingRect c).2.2.2 ∧
       aspectRatioOf (boundingRect c).2.2.1 (boundingRect c).2.2.2 ≤ 15) := by
  unfold passesFilters
  dsimp only
  split_ifs with h1 h2
  · simp only [Bool.false_eq_true, false_iff]
    rintro ⟨a1, a2, _, _⟩
    rcases h1 with h1 | h1
    · exact absurd a1 (not_le.mpr h1)
    · exact absurd a2 (not_le.mpr h1)
  · simp only [Bool.false_eq_true, false_iff]
    rintro ⟨_, _, a3, a4⟩
    rcases h2 with h2 | h2
    · exact absurd a3 (not_le.mpr h2)
    · exact absurd a4 (not_le.mpr h2)
  · push_neg at h1 h2
    simp only [true_iff]
    exact ⟨h1.1, h1.2, h2.1, h2.2⟩

/-- A passing contour forces a positive image area and a bounding box with
positive width and height. -/
lemma passes_pos (A : Nat) (c : Contour) (h : passesFilters A c = true) :
    0 < A ∧ 0 < (boundingRect c).2.2.1 ∧ 0 < (boundingRect c).2.2.2 := by
  obtain ⟨h1, _, _, _⟩ := (passes_iff A c).mp h
  have hA : 0 < A := by
    rcases Nat.eq_zero_or_pos A with rfl | hA
    · rw [areaRatioOf] at h1
      norm_num at h1
    · exact hA
  have hwh : 0 < (boundingRect c).2.2.1 * (boundingRect c).2.2.2 := by
    rcases Nat.eq_zero_or_pos ((boundingRect c).2.2.1 * (boundingRect c).2.2.2)
      with h0 | hpos
    · rw [h0, areaRatioOf] at h1
      norm_num at h1
    · exact hpos
  exact ⟨hA, Nat.pos_of_mul_pos_left (by rwa [Nat.mul_comm] at hwh),
    Nat.pos_of_mul_pos_left hwh⟩

/-! ### Bounding rectangles of contours inside the image -/

/-- A running minimum stays below a running maximum started at a larger
seed. -/
lemma foldl_min_le_foldl_max (f : Nat × Nat → Nat) :
    ∀ (ps : List (Nat × Nat)) (a b : Nat), a ≤ b →
      ps.foldl (fun acc q => min acc (f q)) a ≤
        ps.foldl (fun acc q => max acc (f q)) b := by
  intro ps
  induction ps with
  | nil => intro a b h; simpa using h
  | cons p ps ih =>
    intro a b h
    simp only [List.foldl_cons]
    exact ih _ _ (le_trans (min_le_left _ _) (le_trans h (le_max_left _ _)))

/-- A running maximum stays below a strict upper bound of its seed and of
all values folded in. -/
lemma foldl_max_lt (f : Nat × Nat → Nat) (W : Nat) :
    ∀ (ps : List (Nat × Nat)) (a : Nat), a < W → (∀ q ∈ ps, f q < W) →
      ps.foldl (fun acc q => max acc (f q)) a < W := by
  intro ps
  induction ps with
  | nil => intro a h _; simpa using h
  | cons p ps ih =>
    intro a h hall
    simp only [List.foldl_cons]
    refine ih _ (max_lt h (hall p (List.mem_cons_self p ps))) ?_
    exact fun q hq => hall q (List.mem_cons_of_mem _ hq)

/-- If every point of a contour lies strictly inside the image, the
bounding rectangle lies within the image. -/
lemma boundingRect_within (c : Contour) (W H : Nat)
    (hpts : ∀ p ∈ c, p.1 < W ∧ p.2 < H) :
    (boundingRect c).1 + (boundingRect c).2.2.1 ≤ W ∧
      (boundingRect c).2.1 + (boundingRect c).2.2.2 ≤ H := by
  rcases c with _ | ⟨p, ps⟩
  · simp [boundingRect]
  · have hx : ∀ q ∈ p :: ps, q.1 < W := fun q hq => (hpts q hq).1
    have hy : ∀ q ∈ p :: ps, q.2 < H := fun q hq => (hpts q hq).2
    have hxmin : ps.foldl (fun a q => min a q.1) p.1 ≤
        ps.foldl (fun a q => max a q.1) p.1 :=
      foldl_min_le_foldl_max (fun q => q.1) ps p.1 p.1 le_rfl
    have hymin : ps.foldl (fun a q => min a q.2) p.2 ≤
        ps.foldl (fun a q => max a q.2) p.2 :=
      foldl_min_le_foldl_max (fun q => q.2) ps p.2 p.2 le_rfl
    have hxmax : ps.foldl (fun a q => max a q.1) p.1 < W :=
      foldl_max_lt (fun q => q.1) W ps p.1 (hx p (List.mem_cons_self p ps))
        fun q hq => hx q (List.mem_cons_of_mem _ hq)
    have hymax : ps.foldl (fun a q => max a q.2) p.2 < H :=
      foldl_max_lt (fun q => q.2) H ps p.2 (hy p (List.mem_cons_self p ps))
        fun q hq => hy q (List.mem_cons_of_mem _ hq)
    simp only [boundingRect]
    omega

/-! ### Properties of the crop rectangle -/

/-- The crop corners satisfy the clamping bounds: both corners are inside
the image and ordered, provided the winning box lies within the image. -/
lemma cropRect_bounds (W H : Nat) (b : Nat × Nat × Nat × Nat)
    (hx : b.1 + b.2.2.1 ≤ W) (hy : b.2.1 + b.2.2.2 ≤ H) :
    0 ≤ (cropRect W H b).1 ∧
      (cropRect W H b).1 ≤ (cropRect W H b).2.2.1 ∧
      (cropRect W H b).2.2.1 ≤ (W : Int) ∧
      0 ≤ (cropRect W H b).2.1 ∧
      (cropRect W H b).2.1 ≤ (cropRect W H b).2.2.2 ∧
      (cropRect W H b).2.2.2 ≤ (H : Int) := by
  obtain ⟨x, y, w, h⟩ := b
  simp only [cropRect] at *
  refine ⟨le_max_left _ _, ?_, min_le_left _ _, le_max_left _ _, ?_, min_le_left _ _⟩
  · refine le_min (max_le (Int.natCast_nonneg W) ?_) (max_le (by positivity) (by omega))
    omega
  · refine le_min (max_le (Int.natCast_nonneg H) ?_) (max_le (by positivity) (by omega))
    omega

/-- The crop rectangle contains the winning box, provided the box lies
within the image. -/
lemma cropRect_contains (W H : Nat) (b : Nat × Nat × Nat × Nat)
    (hx : b.1 + b.2.2.1 ≤ W) (hy : b.2.1 + b.2.2.2 ≤ H) :
    (cropRect W H b).1 ≤ (b.1 : Int) ∧
      (cropRect W H b).2.1 ≤ (b.2.1 : Int) ∧
      ((b.1 : Int) + b.2.2.1) ≤ (cropRect W H b).2.2.1 ∧
      ((b.2.1 : Int) + b.2.2.2) ≤ (cropRect W H b).2.2.2 := by
  obtain ⟨x, y, w, h⟩ := b
  simp only [cropRect] at *
  refine ⟨max_le (Int.natCast_nonneg x) (by omega), max_le (Int.natCast_nonneg y) (by omega),
    le_min (by omega) (by omega), le_min (by omega) (by omega)⟩

/-! ### The four outcomes of the pipeline -/

/-- A null input buffer raises the invalid-image error. -/
lemma crop_none (extract : Image → List Contour) :
    crop_test_strip extract none = .error "Invalid image: image is None or empty" := rfl

/-- An empty input buffer raises the invalid-image error. -/
lemma crop_invalid (extract : Image → List Contour) (img : Image)
    (h : img.size = 0) :
    crop_test_strip extract (some img) =
      .error "Invalid image: image is None or empty" := by
  simp [crop_test_strip, h]

/-- The empty-contour exit returns the input image with the
no-contours-found record. -/
lemma crop_noContours (extract : Image → List Contour) (img : Image)
    (hsz : img.size ≠ 0) (h : extract img = []) :
    crop_test_strip extract (some img) =
      .ok (img, noContoursMeta img.width img.height) := by
  simp [crop_test_strip, hsz, h, noContoursMeta]

/-- The empty-candidate exit returns the input image with the
no-suitable-contour record. -/
lemma crop_noStrip (extract : Image → List Contour) (img : Image)
    (hsz : img.size ≠ 0) (hne : extract img ≠ [])
    (hsel : selectBest (img.height * img.width) (extract img) = none) :
    crop_test_strip extract (some img) =
      .ok (img, noStripMeta img.width img.height) := by
  simp [crop_test_strip, hsz, hne, hsel, noStripMeta]

/-- The success exit crops the original buffer at the margin-expanded,
clamped corners of the winning box and reports them in the metadata. -/
lemma crop_success (extract : Image → List Contour) (img : Image)
    (b : Nat × Nat × Nat × Nat)
    (hsz : img.size ≠ 0) (hne : extract img ≠ [])
    (hsel : selectBest (img.height * img.width) (extract img) = some b) :
    crop_test_strip extract (some img) =
      .ok (cropImage img (cropRect img.width img.height b).1
            (cropRect img.width img.height b).2.1
            (cropRect img.width img.height b).2.2.1
            (cropRect img.width img.height b).2.2.2,
        successMeta img.width img.height (cropRect img.width img.height b)) := by
  simp [crop_test_strip, hsz, hne, hsel, successMeta]

/-- Inversion: a successful run determines a winning box selected from the
extracted contours. -/
lemma crop_success_inv (extract : Image → List Contour) (img : Image)
    (cropped : Image) (meta : Metadata)
    (hok : crop_test_strip extract (some img) = .ok (cropped, meta))
    (hsucc : meta.success = true) :
    ∃ b, selectBest (img.height * img.width) (extract img) = some b ∧
      img.size ≠ 0 ∧ extract img ≠ [] ∧
      cropped = cropImage img (cropRect img.width img.height b).1
        (cropRect img.width img.height b).2.1
        (cropRect img.width img.height b).2.2.1
        (cropRect img.width img.height b).2.2.2 ∧
      meta = successMeta img.width img.height (cropRect img.width img.height b) := by
  have hsz : img.size ≠ 0 := by
    intro h0
    rw [crop_invalid extract img h0] at hok
    exact Except.noConfusion hok
  by_cases hne : extract img = []
  · rw [crop_noContours extract img hsz hne] at hok
    simp only [Except.ok.injEq, Prod.mk.injEq] at hok
    rw [← hok.2] at hsucc
    exact absurd hsucc (by simp [noContoursMeta])
  · rcases hsel : selectBest (img.height * img.width) (extract img) with _ | b
    · rw [crop_noStrip extract img hsz hne hsel] at hok
      simp only [Except.ok.injEq, Prod.mk.injEq] at hok
      rw [← hok.2] at hsucc
      exact absurd hsucc (by simp [noStripMeta])
    · rw [crop_success extract img b hsz hne hsel] at hok
      simp only [Except.ok.injEq, Prod.mk.injEq] at hok
      exact ⟨b, rfl, hsz, hne, hok.1.symm, hok.2.symm⟩

/-! ### Dimensions of the cropped buffer -/

/-- Row count of a crop, before clamping assumptions. -/
lemma cropImage_length (img : Image) (x1 y1 x2 y2 : Int) :
    (cropImage img x1 y1 x2 y2).length =
      min (y2 - y1).toNat (img.length - y1.toNat) := by
  unfold cropImage
  rw [List.length_map, List.length_take, List.length_drop]

/-- Every row of a crop is a sliced row of the source image. -/
lemma cropImage_rows (img : Image) (x1 y1 x2 y2 : Int) (r' : List Nat)
    (h : r' ∈ cropImage img x1 y1 x2 y2) :
    ∃ r ∈ img, r' = (r.drop x1.toNat).take (x2 - x1).toNat := by
  unfold cropImage at h
  rcases List.mem_map.mp h with ⟨r, hr, rfl⟩
  exact ⟨r, List.mem_of_mem_drop (List.mem_of_mem_take hr), rfl⟩

/-- The width of a nonempty image whose rows all have length n is n. -/
lemma width_eq_of_rows (img : Image) (n : Nat) (hne : img ≠ [])
    (h : ∀ r ∈ img, r.length = n) : img.width = n := by
  rcases img with _ | ⟨r, rs⟩
  · exact absurd rfl hne
  · simpa [Image.width] using h r (List.mem_cons_self r rs)

/-- Inside the image bounds, a crop has exactly the requested dimensions. -/
lemma cropImage_dims (img : Image) (hwf : img.WF) (x1 y1 x2 y2 : Int)
    (h0 : 0 ≤ x1) (h1 : x1 ≤ x2) (h2 : x2 ≤ (img.width : Int))
    (h3 : 0 ≤ y1) (h4 : y1 < y2) (h5 : y2 ≤ (img.height : Int)) :
    (cropImage img x1 y1 x2 y2).height = (y2 - y1).toNat ∧
      (cropImage img x1 y1 x2 y2).width = (x2 - x1).toNat := by
  have hlen : (cropImage img x1 y1 x2 y2).length = (y2 - y1).toNat := by
    rw [cropImage_length]
    have : img.height = img.length := rfl
    omega
  have hne : cropImage img x1 y1 x2 y2 ≠ [] := by
    intro h0
    rw [h0] at hlen
    simp at hlen
    omega
  refine ⟨hlen, width_eq_of_rows _ _ hne ?_⟩
  intro r' hr'
  rcases cropImage_rows img x1 y1 x2 y2 r' hr' with ⟨r, hr, rfl⟩
  rw [List.length_take, List.length_drop, hwf r hr]
  omega

/-! ### Evaluation of the fixtures -/

/-- Pixel count of the 38×38 fixture. -/
lemma img38_size : img38.size = 1444 := rfl

/-- Image area of the 38×38 fixture. -/
lemma img38_hw : img38.height * img38.width = 1444 := rfl

/-- Image area of the 300×500 fixture. -/
lemma img300_hw : img300x500.height * img300x500.width = 150000 := rfl

/-- Width of the 300×500 fixture. -/
lemma img300_w : img300x500.width = 300 := rfl

/-- Height of the 300×500 fixture. -/
lemma img300_h : img300x500.height = 500 := rfl

/-- The degenerate segment passes both filters on the 38×38 image: its
box area ratio is 15/1444 ∈ [0.01, 0.95] and its aspect ratio is 15. -/
lemma passes_cDeg : passesFilters 1444 cDeg = true := by
  norm_num [passesFilters, boundingRect, areaRatioOf, aspectRatioOf, cDeg]

/-- The degenerate segment is nevertheless never selected: its enclosed
polygon area is 0, so its score 0 never beats the initial best score 0. -/
lemma selectBest_cDeg : selectBest 1444 [cDeg] = none := by
  norm_num [selectBest, step, passesFilters, boundingRect, areaRatioOf, aspectRatioOf,
    score, rectangularity, contourArea, shoelace, cDeg, List.rotate]

/-- The rectangle fixture passes both filters on the 300×500 image. -/
lemma passes_cRect : passesFilters 150000 cRect = true := by
  norm_num [passesFilters, boundingRect, areaRatioOf, aspectRatioOf, cRect]

/-- The shifted rectangle fixture passes both filters as well. -/
lemma passes_cRect2 : passesFilters 150000 cRect2 = true := by
  norm_num [passesFilters, boundingRect, areaRatioOf, aspectRatioOf, cRect2]

/-- Score of the rectangle fixture. -/
lemma score_cRect : score 150000 cRect = 14651 / 150000 := by
  norm_num [score, boundingRect, areaRatioOf, rectangularity, contourArea, shoelace,
    cRect, List.rotate]

/-- The shifted congruent rectangle has exactly the same score. -/
lemma score_cRect2 : score 150000 cRect2 = 14651 / 150000 := by
  norm_num [score, boundingRect, areaRatioOf, rectangularity, contourArea, shoelace,
    cRect2, List.rotate]

/-- Selection on the single rectangle fixture. -/
lemma selectBest_cRect : selectBest 150000 [cRect] = some (100, 100, 50, 300) := by
  norm_num [selectBest, step, passesFilters, boundingRect, areaRatioOf, aspectRatioOf,
    score, rectangularity, contourArea, shoelace, cRect, List.rotate]

/-- Crop corners of the rectangle fixture's box: margins (2, 15), no
clamping triggered. -/
lemma cropRect_cRect : cropRect 300 500 (100, 100, 50, 300) = (98, 85, 152, 415) := rfl

/-- The crop of the 300×500 fixture at those corners. -/
lemma cropImage_300 : cropImage img300x500 98 85 152 415 =
    List.replicate 330 (List.replicate 54 0) := by
  simp [cropImage, img300x500, List.drop_replicate, List.take_replicate, List.map_replicate]

/-- Full pipeline run on the rectangle fixture. -/
lemma crop_cRect_eval : crop_test_strip (fun _ => [cRect]) (some img300x500) =
    .ok (List.replicate 330 (List.replicate 54 0), successMeta 300 500 (98, 85, 152, 415)) := by
  have hsz : img300x500.size ≠ 0 := by
    rw [show img300x500.size = 150000 from rfl]
    norm_num
  have hsel : selectBest (img300x500.height * img300x500.width)
      ((fun _ => [cRect]) img300x500) = some (100, 100, 50, 300) := by
    rw [img300_hw]
    exact selectBest_cRect
  rw [crop_success (fun _ => [cRect]) img300x500 (100, 100, 50, 300) hsz (by simp) hsel,
    img300_w, img300_h, cropRect_cRect, cropImage_300]

/-- Selection on the left-edge rectangle fixture. -/
lemma selectBest_cLeft : selectBest 150000 [cLeft] = some (0, 100, 50, 300) := by
  norm_num [selectBest, step, passesFilters, boundingRect, areaRatioOf, aspectRatioOf,
    score, rectangularity, contourArea, shoelace, cLeft, List.rotate]

/-- Crop corners of the left-edge box: x1 is clamped to 0, not -2. -/
lemma cropRect_cLeft : cropRect 300 500 (0, 100, 50, 300) = (0, 85, 52, 415) := rfl

/-- The crop of the 300×500 fixture at the left-edge corners. -/
lemma cropImage_300L : cropImage img300x500 0 85 52 415 =
    List.replicate 330 (List.replicate 52 0) := by
  simp [cropImage, img300x500, List.drop_replicate, List.take_replicate, List.map_replicate]

/-- Full pipeline run on the left-edge rectangle fixture. -/
lemma crop_cLeft_eval : crop_test_strip (fun _ => [cLeft]) (some img300x500) =
    .ok (List.replicate 330 (List.replicate 52 0), successMeta 300 500 (0, 85, 52, 415)) := by
  have hsz : img300x500.size ≠ 0 := by
    rw [show img300x500.size = 150000 from rfl]
    norm_num
  have hsel : selectBest (img300x500.height * img300x500.width)
      ((fun _ => [cLeft]) img300x500) = some (0, 100, 50, 300) := by
    rw [img300_hw]
    exact selectBest_cLeft
  rw [crop_success (fun _ => [cLeft]) img300x500 (0, 100, 50, 300) hsz (by simp) hsel,
    img300_w, img300_h, cropRect_cLeft, cropImage_300L]

/-! ### Claim theorems -/

/-- C1 (counterexample): a contour can pass both the area-ratio filter and
the aspect-ratio filter and the pipeline can still fail with "No suitable
test strip contour found".  The degenerate 1-pixel-wide segment cDeg passes
both filters on the 38×38 image (area ratio 15/1444, aspect ratio 15) but
its enclosed polygon area — hence its score — is 0, which never beats the
initial best score 0, so no candidate is selected. -/
theorem C1_counterexample :
    passesFilters (img38.height * img38.width) cDeg = true ∧
    crop_test_strip (fun _ => [cDeg]) (some img38) = .ok (img38, noStripMeta 38 38) ∧
    (noStripMeta 38 38).success = false ∧
    (noStripMeta 38 38).message = "No suitable test strip contour found" := by
  refine ⟨by rw [img38_hw]; exact passes_cDeg, ?_, rfl, rfl⟩
  have hsz : img38.size ≠ 0 := by
    rw [img38_size]
    norm_num
  have hsel : selectBest (img38.height * img38.width) ((fun _ => [cDeg]) img38) = none := by
    rw [img38_hw]
    exact selectBest_cDeg
  have h := crop_noStrip (fun _ => [cDeg]) img38 hsz (by simp) hsel
  rw [h, show img38.width = 38 from rfl, show img38.height = 38 from rfl]

/-- C1 (amended): for a non-empty buffer whose extractor yields at least
one contour, the pipeline returns success if and only if some contour
passes both filters with a strictly positive score (positive enclosed
polygon area); failure with "No suitable test strip contour found" occurs
precisely when no contour passes both filters with positive score. -/
theorem C1_success_iff_positive_passing (extract : Image → List Contour) (img : Image)
    (hsz : img.size ≠ 0) (hne : extract img ≠ []) :
    ((∃ cropped meta, crop_test_strip extract (some img) = .ok (cropped, meta) ∧
        meta.success = true) ↔
      ∃ c ∈ extract img, passesFilters (img.height * img.width) c = true ∧
        0 < score (img.height * img.width) c) ∧
    ((∀ c ∈ extract img, ¬(passesFilters (img.height * img.width) c = true ∧
        0 < score (img.height * img.width) c)) →
      crop_test_strip extract (some img) = .ok (img, noStripMeta img.width img.height)) := by
  constructor
  · constructor
    · rintro ⟨cropped, meta, hok, hsucc⟩
      obtain ⟨b, hsel, _, _, _, _⟩ := crop_success_inv extract img cropped meta hok hsucc
      exact (selectBest_isSome_iff _ _).mp (by rw [hsel]; rfl)
    · intro hexists
      have hsome : (selectBest (img.height * img.width) (extract img)).isSome :=
        (selectBest_isSome_iff _ _).mpr hexists
      rcases hsel : selectBest (img.height * img.width) (extract img) with _ | b
      · rw [hsel] at hsome
        simp at hsome
      · exact ⟨_, _, crop_success extract img b hsz hne hsel, rfl⟩
  · intro hnone
    rcases hsel : selectBest (img.height * img.width) (extract img) with _ | b
    · exact crop_noStrip extract img hsz hne hsel
    · exfalso
      obtain ⟨c, hc, h1, h2⟩ := (selectBest_isSome_iff _ _).mp (by rw [hsel]; rfl)
      exact hnone c hc ⟨h1, h2⟩

/-- Witness for C1 (amended): the rectangle fixture passes both filters
with positive score, and the pipeline indeed reports success. -/
theorem C1_witness : ∃ cropped meta,
    crop_test_strip (fun _ => [cRect]) (some img300x500) = .ok (cropped, meta) ∧
      meta.success = true := by
  refine ((C1_success_iff_positive_passing (fun _ => [cRect]) img300x500 ?_ (by simp)).1).mpr ?_
  · rw [show img300x500.size = 150000 from rfl]
    norm_num
  · refine ⟨cRect, by simp, ?_, ?_⟩
    · rw [img300_hw]
      exact passes_cRect
    · rw [img300_hw, score_cRect]
      norm_num

/-- C2: the candidate loop tracks the contour with the strictly greatest
score in traversal order; the selected candidate is the first contour
attaining the maximum score, so on exact ties the first-seen contour
wins. -/
theorem C2_first_seen_max (A : Nat) (l₁ l₂ : List Contour) (c : Contour)
    (hpass : passesFilters A c = true) (hpos : 0 < score A c)
    (hbefore : ∀ c' ∈ l₁, passesFilters A c' = true → score A c' < score A c)
    (hafter : ∀ c' ∈ l₂, passesFilters A c' = true → score A c' ≤ score A c) :
    selectBest A (l₁ ++ c :: l₂) = some (boundingRect c) := by
  unfold selectBest
  rw [List.foldl_append, List.foldl_cons]
  have h1 : (l₁.foldl (step A) (0, none)).1 < score A c :=
    foldl_step_fst_lt A (score A c) l₁ (0, none) hpos hbefore
  have h2 : step A (l₁.foldl (step A) (0, none)) c = (score A c, some (boundingRect c)) :=
    step_updates A _ c hpass h1
  rw [h2, foldl_step_keep A l₂ (score A c, some (boundingRect c)) hafter]

/-- Witness for C2: two congruent rectangles with exactly equal scores;
the first one produced by the extractor is selected. -/
theorem C2_witness :
    score 150000 cRect2 = score 150000 cRect ∧
    selectBest 150000 [cRect, cRect2] = some (100, 100, 50, 300) := by
  have hafter : ∀ c' ∈ [cRect2], passesFilters 150000 c' = true →
      score 150000 c' ≤ score 150000 cRect := by
    intro c' hc' _
    have hc : c' = cRect2 := by simpa using hc'
    rw [hc, score_cRect2, score_cRect]
  have hbefore : ∀ c' ∈ ([] : List Contour), passesFilters 150000 c' = true →
      score 150000 c' < score 150000 cRect := by
    simp
  have hpos : 0 < score 150000 cRect := by
    rw [score_cRect]
    norm_num
  refine ⟨by rw [score_cRect2, score_cRect], ?_⟩
  exact C2_first_seen_max 150000 [] [cRect2] cRect passes_cRect hpos hbefore hafter

/-- C3: under the extractor contract that every contour point lies inside
the image, every successful invocation returns a bbox (x1, y1, x2-x1,
y2-y1) with 0 ≤ x1 ≤ x2 ≤ width and 0 ≤ y1 ≤ y2 ≤ height; in particular x1
is clamped at 0 and never negative. -/
theorem C3_bbox_bounds (extract : Image → List Contour) (img : Image)
    (cropped : Image) (meta : Metadata)
    (hb : ∀ c ∈ extract img, ∀ p ∈ c, p.1 < img.width ∧ p.2 < img.height)
    (hok : crop_test_strip extract (some img) = .ok (cropped, meta))
    (hsucc : meta.success = true) :
    ∃ x1 y1 bw bh : Int, meta.bbox = some (x1, y1, bw, bh) ∧
      0 ≤ x1 ∧ x1 ≤ x1 + bw ∧ x1 + bw ≤ (img.width : Int) ∧
      0 ≤ y1 ∧ y1 ≤ y1 + bh ∧ y1 + bh ≤ (img.height : Int) := by
  obtain ⟨b, hsel, hsz, hne, hcrop, hmeta⟩ := crop_success_inv extract img cropped meta hok hsucc
  obtain ⟨c, hc, hbr, hpassc, _⟩ := selectBest_mem _ _ _ hsel
  have hwithin := boundingRect_within c img.width img.height (hb c hc)
  rw [← hbr] at hwithin
  obtain ⟨e1, e2, e3, e4, e5, e6⟩ :=
    cropRect_bounds img.width img.height b hwithin.1 hwithin.2
  refine ⟨(cropRect img.width img.height b).1, (cropRect img.width img.height b).2.1,
    (cropRect img.width img.height b).2.2.1 - (cropRect img.width img.height b).1,
    (cropRect img.width img.height b).2.2.2 - (cropRect img.width img.height b).2.1,
    ?_, e1, by linarith, by linarith, e4, by linarith, by linarith⟩
  rw [hmeta]
  rfl

/-- Witness for C3: the left-edge rectangle fixture, whose margin would
push x1 to -2 without clamping; the returned bbox is (0, 85, 52, 330) and
satisfies all six bounds on the 300×500 image. -/
theorem C3_witness :
    ∃ x1 y1 bw bh : Int,
      (successMeta 300 500 (0, 85, 52, 415)).bbox = some (x1, y1, bw, bh) ∧
      0 ≤ x1 ∧ x1 ≤ x1 + bw ∧ x1 + bw ≤ ((300 : Nat) : Int) ∧
      0 ≤ y1 ∧ y1 ≤ y1 + bh ∧ y1 + bh ≤ ((500 : Nat) : Int) := by
  refine C3_bbox_bounds (fun _ => [cLeft]) img300x500
    (List.replicate 330 (List.replicate 52 0)) (successMeta 300 500 (0, 85, 52, 415))
    ?_ crop_cLeft_eval rfl
  intro c hc p hp
  have hcl : c = cLeft := by simpa using hc
  rw [hcl] at hp
  rw [img300_w, img300_h]
  simp only [cLeft, List.mem_cons, List.not_mem_nil, or_false] at hp
  rcases hp with rfl | rfl | rfl | rfl <;> norm_num

/-- C4: the crop margins are floor(w·0.05) and floor(h·0.05) (equal to the
integer divisions w·5/100 and h·5/100), and the crop corners are
x1 = max(0, x−mx), y1 = max(0, y−my), x2 = min(width, x+w+mx),
y2 = min(height, y+h+my); in particular the winning box (100, 100, 50,
300) on a 300×500 image yields crop corners (98, 85, 152, 415). -/
theorem C4_margin_arithmetic :
    (∀ W H x y w h : Nat, cropRect W H (x, y, w, h) =
      (max 0 ((x : Int) - (⌊(w : ℚ) * (5 / 100)⌋₊ : Int)),
       max 0 ((y : Int) - (⌊(h : ℚ) * (5 / 100)⌋₊ : Int)),
       min (W : Int) ((x : Int) + w + (⌊(w : ℚ) * (5 / 100)⌋₊ : Int)),
       min (H : Int) ((y : Int) + h + (⌊(h : ℚ) * (5 / 100)⌋₊ : Int)))) ∧
    cropRect 300 500 (100, 100, 50, 300) = (98, 85, 152, 415) := by
  have hfloor : ∀ w : Nat, ⌊(w : ℚ) * (5 / 100)⌋₊ = w * 5 / 100 := by
    intro w
    rw [show (w : ℚ) * (5 / 100) = ((w * 5 : ℕ) : ℚ) / ((100 : ℕ) : ℚ) by push_cast; ring,
      Nat.floor_div_nat, Nat.floor_natCast]
  refine ⟨fun W H x y w h => ?_, rfl⟩
  simp only [cropRect, hfloor]

/-- C5: on both detection failures the pipeline returns the original
buffer unchanged together with a success=false record whose message is
exactly "No contours found in image" for the empty-contour exit and
exactly "No suitable test strip contour found" for the empty-candidate
exit. -/
theorem C5_failure_returns_original (extract : Image → List Contour) (img : Image)
    (hsz : img.size ≠ 0) :
    (extract img = [] →
      crop_test_strip extract (some img) =
        .ok (img, noContoursMeta img.width img.height)) ∧
    (extract img ≠ [] → selectBest (img.height * img.width) (extract img) = none →
      crop_test_strip extract (some img) =
        .ok (img, noStripMeta img.width img.height)) ∧
    (noContoursMeta img.width img.height).success = false ∧
    (noContoursMeta img.width img.height).message = "No contours found in image" ∧
    (noStripMeta img.width img.height).success = false ∧
    (noStripMeta img.width img.height).message = "No suitable test strip contour found" :=
  ⟨crop_noContours extract img hsz,
   fun hne hsel => crop_noStrip extract img hsz hne hsel,
   rfl, rfl, rfl, rfl⟩

/-- Witness for C5: the extractor that finds no contours on the 1×1 image;
the pipeline returns the input buffer with the no-contours record. -/
theorem C5_witness :
    crop_test_strip extractZero (some img1) = .ok (img1, noContoursMeta 1 1) ∧
    (noContoursMeta 1 1).success = false :=
  ⟨(C5_failure_returns_original extractZero img1 (by decide)).1 rfl, rfl⟩

/-- C6: the core function raises the invalid-image error exactly when the
input buffer is null or empty, and returns a (croppedBuffer, metadata)
pair exactly otherwise. -/
theorem C6_error_iff_null_or_empty (extract : Image → List Contour)
    (input : Option Image) :
    ((∃ e, crop_test_strip extract input = .error e) ↔
      input = none ∨ ∃ img, input = some img ∧ img.size = 0) ∧
    ((∃ p, crop_test_strip extract input = .ok p) ↔
      ¬(input = none ∨ ∃ img, input = some img ∧ img.size = 0)) := by
  rcases input with _ | img
  · exact ⟨⟨fun _ => Or.inl rfl, fun _ => ⟨_, crop_none extract⟩⟩,
      ⟨fun ⟨p, hp⟩ => absurd ((crop_none extract).symm.trans hp) (by simp),
       fun hn => absurd (Or.inl rfl) hn⟩⟩
  · by_cases hsz : img.size = 0
    · refine ⟨⟨fun _ => Or.inr ⟨img, rfl, hsz⟩, fun _ => ⟨_, crop_invalid extract img hsz⟩⟩,
        ⟨fun ⟨p, hp⟩ => absurd ((crop_invalid extract img hsz).symm.trans hp) (by simp),
         fun hn => absurd (Or.inr ⟨img, rfl, hsz⟩) hn⟩⟩
    · have hok : ∃ p, crop_test_strip extract (some img) = .ok p := by
        by_cases hne : extract img = []
        · exact ⟨_, crop_noContours extract img hsz hne⟩
        · rcases hsel : selectBest (img.height * img.width) (extract img) with _ | b
          · exact ⟨_, crop_noStrip extract img hsz hne hsel⟩
          · exact ⟨_, crop_success extract img b hsz hne hsel⟩
      have hcond : ¬(some img = none ∨ ∃ img', some img = some img' ∧ img'.size = 0) := by
        rintro (h | ⟨img', he, hs⟩)
        · exact Option.noConfusion h
        · rw [Option.some.injEq] at he
          rw [he] at hsz
          exact hsz hs
      obtain ⟨p, hp⟩ := hok
      refine ⟨⟨fun ⟨e, he⟩ => absurd (hp.symm.trans he) (by simp), fun h => absurd h hcond⟩,
        ⟨fun _ => hcond, fun _ => ⟨p, hp⟩⟩⟩

/-- C7: a contour is rejected by the candidate filters exactly when its
bounding-box area ratio lies outside [0.01, 0.95] or its aspect ratio lies
outside [1.5, 15.0]; a zero-width bounding box yields aspect ratio 0 under
the division guard and is therefore rejected. -/
theorem C7_reject_iff_outside (A : Nat) (c : Contour) :
    (passesFilters A c = false ↔
      areaRatioOf A ((boundingRect c).2.2.1 * (boundingRect c).2.2.2) < 1 / 100 ∨
        95 / 100 < areaRatioOf A ((boundingRect c).2.2.1 * (boundingRect c).2.2.2) ∨
        aspectRatioOf (boundingRect c).2.2.1 (boundingRect c).2.2.2 < 3 / 2 ∨
        15 < aspectRatioOf (boundingRect c).2.2.1 (boundingRect c).2.2.2) ∧
    ((boundingRect c).2.2.1 = 0 →
      aspectRatioOf (boundingRect c).2.2.1 (boundingRect c).2.2.2 = 0 ∧
      passesFilters A c = false) := by
  have hiff := passes_iff A c
  have main : passesFilters A c = false ↔
      areaRatioOf A ((boundingRect c).2.2.1 * (boundingRect c).2.2.2) < 1 / 100 ∨
        95 / 100 < areaRatioOf A ((boundingRect c).2.2.1 * (boundingRect c).2.2.2) ∨
        aspectRatioOf (boundingRect c).2.2.1 (boundingRect c).2.2.2 < 3 / 2 ∨
        15 < aspectRatioOf (boundingRect c).2.2.1 (boundingRect c).2.2.2 := by
    cases hb : passesFilters A c
    · simp only [true_iff]
      by_contra hno
      push_neg at hno
      obtain ⟨h1, h2, h3, h4⟩ := hno
      have := hiff.mpr ⟨h1, h2, h3, h4⟩
      rw [hb] at this
      exact Bool.noConfusion this
    · simp only [Bool.true_eq_false, false_iff]
      obtain ⟨h1, h2, h3, h4⟩ := hiff.mp hb
      rintro (h | h | h | h) <;> linarith
  refine ⟨main, fun hw => ?_⟩
  have ha : aspectRatioOf (boundingRect c).2.2.1 (boundingRect c).2.2.2 = 0 := by
    rw [hw]
    simp [aspectRatioOf]
  refine ⟨ha, main.mpr (Or.inl ?_)⟩
  rw [hw]
  simp [areaRatioOf]

/-- Witness for C7: the empty contour has a zero-width bounding box, gets
aspect ratio 0 from the guard, and is rejected. -/
theorem C7_witness :
    aspectRatioOf (boundingRect ([] : Contour)).2.2.1
        (boundingRect ([] : Contour)).2.2.2 = 0 ∧
      passesFilters 100 ([] : Contour) = false :=
  (C7_reject_iff_outside 100 []).2 rfl

/-- C8: the pipeline is deterministic — two invocations of the embedded
core function on the same extractor and the same pixel buffer are equal. -/
theorem C8_deterministic (extract : Image → List Contour) (input : Option Image) :
    crop_test_strip extract input = crop_test_strip extract input := rfl

/-- C9: under the extractor contract that the enclosed polygon area of a
contour does not exceed its bounding-box area, every scored (filter-passing)
contour receives a score in [0, 1]. -/
theorem C9_score_in_unit_interval (A : Nat) (c : Contour)
    (hpass : passesFilters A c = true)
    (harea : contourArea c ≤
      (((boundingRect c).2.2.1 * (boundingRect c).2.2.2 : Nat) : ℚ)) :
    0 ≤ score A c ∧ score A c ≤ 1 := by
  obtain ⟨h1, h2, _, _⟩ := (passes_iff A c).mp hpass
  obtain ⟨hA, hw, hh⟩ := passes_pos A c hpass
  have hwhpos : 0 < (boundingRect c).2.2.1 * (boundingRect c).2.2.2 :=
    Nat.mul_pos hw hh
  have hwhQ : (0 : ℚ) < (((boundingRect c).2.2.1 * (boundingRect c).2.2.2 : Nat) : ℚ) := by
    exact_mod_cast hwhpos
  have hca0 : 0 ≤ contourArea c := by
    unfold contourArea
    positivity
  unfold score rectangularity
  dsimp only
  rw [if_pos hwhpos]
  constructor
  · exact mul_nonneg (by linarith) (div_nonneg hca0 (le_of_lt hwhQ))
  · have hr1 : areaRatioOf A ((boundingRect c).2.2.1 * (boundingRect c).2.2.2) ≤ 1 := by
      linarith
    have hd1 : contourArea c /
        (((boundingRect c).2.2.1 * (boundingRect c).2.2.2 : Nat) : ℚ) ≤ 1 :=
      (div_le_one hwhQ).mpr harea
    have hd0 : 0 ≤ contourArea c /
        (((boundingRect c).2.2.1 * (boundingRect c).2.2.2 : Nat) : ℚ) :=
      div_nonneg hca0 (le_of_lt hwhQ)
    nlinarith

/-- Witness for C9: the rectangle fixture passes the filters and has
enclosed area 14651 inside its 15000-pixel bounding box; its score
14651/150000 lies in [0, 1]. -/
theorem C9_witness : 0 ≤ score 150000 cRect ∧ score 150000 cRect ≤ 1 := by
  refine C9_score_in_unit_interval 150000 cRect passes_cRect ?_
  norm_num [contourArea, shoelace, boundingRect, cRect, List.rotate]

/-- C10: on success the crop rectangle contains the winning box (when the
box lies within the image), the metadata bbox width and height are x2−x1
and y2−y1 and are strictly positive, the reported cropped_size equals
them, and the cropped buffer has exactly those dimensions. -/
theorem C10_crop_contains_winner (extract : Image → List Contour) (img : Image)
    (cropped : Image) (meta : Metadata) (b : Nat × Nat × Nat × Nat)
    (hwf : img.WF)
    (hok : crop_test_strip extract (some img) = .ok (cropped, meta))
    (hsucc : meta.success = true)
    (hsel : selectBest (img.height * img.width) (extract img) = some b)
    (hinx : b.1 + b.2.2.1 ≤ img.width) (hiny : b.2.1 + b.2.2.2 ≤ img.height) :
    ∃ x1 y1 bw bh : Int, meta.bbox = some (x1, y1, bw, bh) ∧
      x1 ≤ (b.1 : Int) ∧ y1 ≤ (b.2.1 : Int) ∧
      ((b.1 : Int) + b.2.2.1) ≤ x1 + bw ∧ ((b.2.1 : Int) + b.2.2.2) ≤ y1 + bh ∧
      0 < bw ∧ 0 < bh ∧
      meta.cropped_size = some (bw, bh) ∧
      (cropped.height : Int) = bh ∧ (cropped.width : Int) = bw := by
  obtain ⟨b', hsel', hsz, hne, hcrop, hmeta⟩ := crop_success_inv extract img cropped meta hok hsucc
  rw [hsel'] at hsel
  rw [Option.some.injEq] at hsel
  subst hsel
  obtain ⟨c, hc, hbr, hpassc, _⟩ := selectBest_mem _ _ _ hsel'
  obtain ⟨_, hwpos, hhpos⟩ := passes_pos _ _ hpassc
  rw [← hbr] at hwpos hhpos
  obtain ⟨e1, e2, e3, e4, e5, e6⟩ := cropRect_bounds img.width img.height b' hinx hiny
  obtain ⟨f1, f2, f3, f4⟩ := cropRect_contains img.width img.height b' hinx hiny
  have hwQ : (0 : Int) < (b'.2.2.1 : Int) := by exact_mod_cast hwpos
  have hhQ : (0 : Int) < (b'.2.2.2 : Int) := by exact_mod_cast hhpos
  have hy12 : (cropRect img.width img.height b').2.1 <
      (cropRect img.width img.height b').2.2.2 := by linarith
  have hx12 : (cropRect img.width img.height b').1 <
      (cropRect img.width img.height b').2.2.1 := by linarith
  obtain ⟨hH, hW⟩ := cropImage_dims img hwf
    (cropRect img.width img.height b').1 (cropRect img.width img.height b').2.1
    (cropRect img.width img.height b').2.2.1 (cropRect img.width img.height b').2.2.2
    e1 (le_of_lt hx12) e3 e4 hy12 e6
  refine ⟨(cropRect img.width img.height b').1, (cropRect img.width img.height b').2.1,
    (cropRect img.width img.height b').2.2.1 - (cropRect img.width img.height b').1,
    (cropRect img.width img.height b').2.2.2 - (cropRect img.width img.height b').2.1,
    by rw [hmeta]; rfl, f1, f2, by linarith, by linarith, by linarith, by linarith,
    by rw [hmeta]; rfl, ?_, ?_⟩
  · rw [hcrop, hH]
    rw [Int.toNat_of_nonneg (by linarith)]
  · rw [hcrop, hW]
    rw [Int.toNat_of_nonneg (by linarith)]

/-- Witness for C10: the rectangle fixture's successful run; bbox
(98, 85, 54, 330) contains the winning box (100, 100, 50, 300) and the
cropped buffer is 54×330. -/
theorem C10_witness :
    ∃ x1 y1 bw bh : Int,
      (successMeta 300 500 (98, 85, 152, 415)).bbox = some (x1, y1, bw, bh) ∧
      x1 ≤ ((100 : Nat) : Int) ∧ y1 ≤ ((100 : Nat) : Int) ∧
      (((100 : Nat) : Int) + (50 : Nat)) ≤ x1 + bw ∧
      (((100 : Nat) : Int) + (300 : Nat)) ≤ y1 + bh ∧
      0 < bw ∧ 0 < bh ∧
      (successMeta 300 500 (98, 85, 152, 415)).cropped_size = some (bw, bh) ∧
      ((Image.height (List.replicate 330 (List.replicate 54 0)) : Int) = bh) ∧
      ((Image.width (List.replicate 330 (List.replicate 54 0)) : Int) = bw) := by
  refine C10_crop_contains_winner (fun _ => [cRect]) img300x500
    (List.replicate 330 (List.replicate 54 0)) (successMeta 300 500 (98, 85, 152, 415))
    (100, 100, 50, 300) ?_ crop_cRect_eval rfl ?_ ?_ ?_
  · intro r hr
    have hrr : r = List.replicate 300 0 :=
      List.eq_of_mem_replicate (show r ∈ List.replicate 500 (List.replicate 300 0) from hr)
    rw [hrr, img300_w]
    simp
  · rw [img300_hw]
    exact selectBest_cRect
  · rw [img300_w]
    decide
  · rw [img300_h]
    decide

end StripCrop
